import Mathlib

/-!
Shallow embedding of the NEOBOOK social data store layer.

The source layer is implemented three times:
* `Sync`  — the synchronous localStorage service (`src/unnamed/part_000`);
* `Async` — the asynchronous localStorage service (`src/unnamed/part_001`);
* `Fire`  — the Firestore service (`src/services/storage.ts`).
Read-path logic from `src/components/Feed/Feed.tsx` lives in namespace `Feed`.

JavaScript arrays become `List`, `undefined`-able fields become `Option`,
timestamps become `Nat`, and in-place mutation of a record found inside an
array becomes `updateFirst` (replace the first record with the matching id,
exactly what `users.find(...)` + field mutation + save does, including the
aliasing behaviour when the two looked-up ids coincide).
-/

/-- The `User` record from `src/types` (`src/unnamed/part_001`, types section). -/
structure User where
  id : String
  userId : String
  username : String
  password : Option String
  name : String
  email : Option String
  avatar : String
  coverPhoto : String
  bio : String
  joinedAt : Nat
  friends : List String
  friendRequests : List String
  isAdmin : Option Bool
  status : String
deriving Repr, DecidableEq

/-- The `Comment` record from `src/types`. -/
structure Comment where
  id : String
  authorId : String
  content : String
  createdAt : Nat
deriving Repr, DecidableEq

/-- The `Post` record from `src/types`. -/
structure Post where
  id : String
  authorId : String
  content : String
  image : Option String
  likes : List String
  comments : List Comment
  createdAt : Nat
  sharedFromId : Option String
  targetUserIds : Option (List String)
deriving Repr, DecidableEq

/-- The `Message` record from `src/types`. -/
structure Message where
  id : String
  fromId : String
  toId : String
  content : String
  timestamp : Nat
  read : Bool
deriving Repr, DecidableEq

/-- Replace the first record whose `id` matches `uid` by `f` of it.
This is the effect of `users.find(u => u.id === uid)` followed by in-place
mutation of the found object and saving the whole array back. -/
def updateFirst (users : List User) (uid : String) (f : User → User) : List User :=
  match users with
  | [] => []
  | u :: rest => if u.id == uid then f u :: rest else u :: updateFirst rest uid f

/-- From `StorageService.findUserById` (part_000): first stored user with the given `id`. -/
def findUserById (users : List User) (uid : String) : Option User :=
  users.find? (fun u => u.id == uid)

/-- The `friends` list of the stored user with id `uid` (empty when absent). -/
def friendsOf (users : List User) (uid : String) : List String :=
  ((findUserById users uid).map User.friends).getD []

/-- The `friendRequests` list of the stored user with id `uid` (empty when absent). -/
def requestsOf (users : List User) (uid : String) : List String :=
  ((findUserById users uid).map User.friendRequests).getD []

/-- The field mutation `u.friends.push(fid)` (part_000). -/
def addFriend (fid : String) (u : User) : User :=
  { u with friends := u.friends ++ [fid] }

/-- The guarded push `if (!u.friends.includes(fid)) u.friends.push(fid)` (part_001). -/
def addFriendIfAbsent (fid : String) (u : User) : User :=
  if u.friends.contains fid then u else { u with friends := u.friends ++ [fid] }

/-- The field mutation `u.friendRequests = u.friendRequests.filter(id => id !== rid)`. -/
def dropRequest (rid : String) (u : User) : User :=
  { u with friendRequests := u.friendRequests.filter (fun i => i != rid) }

namespace Feed

/-- The read-path visibility filter applied inside `subscribeToPosts` in
`Feed.tsx`: `!p.targetUserIds || p.targetUserIds.length === 0 ||
p.targetUserIds.includes(currentUser.id) || p.authorId === currentUser.id`. -/
def isPostVisible (p : Post) (viewerId : String) : Bool :=
  match p.targetUserIds with
  | none => true
  | some ts => ts.isEmpty || ts.contains viewerId || p.authorId == viewerId

/-- From `handleLike` in `Feed.tsx`: membership toggle on `post.likes`,
then the whole post is re-saved. -/
def handleLike (post : Post) (currentUserId : String) : Post :=
  let isLiked := post.likes.contains currentUserId
  let updatedLikes :=
    if isLiked then post.likes.filter (fun i => i != currentUserId)
    else post.likes ++ [currentUserId]
  { post with likes := updatedLikes }

/-- From `handleSharePost` in `Feed.tsx`: the new post built from the post being
shared (`postToShare`), the sharer, the caption and the selected friends. -/
def handleSharePost (postToShare : Post) (currentUserId : String)
    (shareCaption : String) (selectedFriends : List String) (now : Nat) : Post :=
  { id := "post-share-" ++ toString now
    authorId := currentUserId
    content := shareCaption
    image := none
    likes := []
    comments := []
    createdAt := now
    sharedFromId := some postToShare.id
    targetUserIds := if selectedFriends.length > 0 then some selectedFriends else none }

end Feed

/-- A concrete post with an empty likes list, used to instantiate theorems. -/
def basePost : Post :=
  { id := "post-7"
    authorId := "author-1"
    content := "hello"
    image := none
    likes := []
    comments := []
    createdAt := 7
    sharedFromId := none
    targetUserIds := none }

/-- A concrete post that is itself a share of post `p1`. -/
def shareOfShare : Post :=
  { basePost with id := "p2", sharedFromId := some ("p1") }

/-- C1: the Feed read-path visibility predicate returns `true` exactly when the
visibility set is absent, or empty, or contains the viewer, or the viewer is
the author. -/
theorem isPostVisible_iff (p : Post) (v : String) :
    Feed.isPostVisible p v = true ↔
      (p.targetUserIds = none ∨ p.targetUserIds = some [] ∨
        (∃ ts, p.targetUserIds = some ts ∧ v ∈ ts) ∨ v = p.authorId) := by
  cases h : p.targetUserIds with
  | none => simp [Feed.isPostVisible, h]
  | some ts =>
    simp only [Feed.isPostVisible, h, Bool.or_eq_true, List.isEmpty_iff,
      List.elem_iff, beq_iff_eq, Option.some.injEq, reduceCtorEq,
      false_or, exists_eq_left']
    constructor
    · rintro ((h1 | h2) | h3)
      · exact Or.inl h1
      · exact Or.inr (Or.inl h2)
      · exact Or.inr (Or.inr h3.symm)
    · rintro (h1 | h2 | h3)
      · exact Or.inl (Or.inl h1)
      · exact Or.inl (Or.inr h2)
      · exact Or.inr h3.symm

/-- C4 counterexample: `handleLike` is a toggle, not idempotent — applying it
twice to a post the user has not liked removes the like again, so the likes
membership after two applications differs from the membership after one. -/
theorem handleLike_twice_ne_once :
    ("u1" : String) ∈ (Feed.handleLike basePost ("u1")).likes ∧
    ("u1" : String) ∉ (Feed.handleLike (Feed.handleLike basePost ("u1")) ("u1")).likes := by
  decide

/-- C4 (amended): `handleLike` toggles membership in `likes`: on a post the
user has not liked it appends the user, and a second application (the unlike
direction) restores exactly the pre-like likes list. -/
theorem handleLike_double_restores (p : Post) (u : String) (h : u ∉ p.likes) :
    (Feed.handleLike p u).likes = p.likes ++ [u] ∧
    (Feed.handleLike (Feed.handleLike p u) u).likes = p.likes := by
  have hfilter : p.likes.filter (fun i => i != u) = p.likes := by
    apply List.filter_eq_self.mpr
    intro a ha
    exact bne_iff_ne.mpr (fun e => h (e ▸ ha))
  constructor
  · simp [Feed.handleLike, h]
  · simp [Feed.handleLike, h, List.filter_append, hfilter]

/-- Witness for `handleLike_double_restores` at a concrete post and user. -/
theorem handleLike_double_restores_witness :
    ("u1" : String) ∉ basePost.likes ∧
    (Feed.handleLike (Feed.handleLike basePost ("u1")) ("u1")).likes = basePost.likes :=
  ⟨by decide, (handleLike_double_restores basePost ("u1") (by decide)).2⟩

/-- C5 counterexample: sharing a post that is itself a share produces a new
post whose `sharedFromId` is the own id of the share, not the id of the original post —
the chain is not flattened. -/
theorem handleSharePost_chains :
    (Feed.handleSharePost shareOfShare ("u9") ("look") [] 99).sharedFromId
        = some shareOfShare.id ∧
    shareOfShare.sharedFromId = some ("p1") ∧
    (Feed.handleSharePost shareOfShare ("u9") ("look") [] 99).sharedFromId ≠ some ("p1") := by
  refine ⟨rfl, rfl, ?_⟩
  decide

/-- C5 (amended): `handleSharePost` always points the `sharedFromId` of the
new post at the own id of the shared post (chaining through intermediate
shares), with the sharer as author and the caption as content. -/
theorem handleSharePost_sharedFromId (p : Post) (uid cap : String)
    (sel : List String) (now : Nat) :
    (Feed.handleSharePost p uid cap sel now).sharedFromId = some p.id ∧
    (Feed.handleSharePost p uid cap sel now).authorId = uid ∧
    (Feed.handleSharePost p uid cap sel now).content = cap :=
  ⟨rfl, rfl, rfl⟩

namespace Sync

/-- From `StorageService.updateUser` (part_000): reject when the handle (`userId`)
is taken by a *different* stored user, otherwise replace the record with the
matching `id` everywhere and report success. -/
def updateUser (users : List User) (updatedUser : User) : Bool × List User :=
  if users.any (fun u => u.userId == updatedUser.userId && u.id != updatedUser.id) then
    (false, users)
  else
    (true, users.map (fun u => if u.id == updatedUser.id then updatedUser else u))

/-- From `StorageService.createPost` (part_000): when more than 50 posts are
already stored, drop the last (oldest, since insertion is `unshift`) one,
then prepend the new post. -/
def createPost (posts : List Post) (post : Post) : List Post :=
  let posts := if posts.length > 50 then posts.dropLast else posts
  post :: posts

/-- From `StorageService.acceptFriendRequest` (part_000): when both users are
stored, push each id onto the `friends` of the other, filter the requester
out of the `friendRequests` of the accepter, and push one system message announcing the
friendship. When either lookup fails nothing happens. -/
def acceptFriendRequest (users : List User) (messages : List Message)
    (userId requesterId : String) (now : Nat) : List User × List Message :=
  match findUserById users userId, findUserById users requesterId with
  | some _, some requester =>
    let users1 := updateFirst users userId (addFriend requesterId)
    let users2 := updateFirst users1 requesterId (addFriend userId)
    let users3 := updateFirst users2 userId (dropRequest requesterId)
    (users3, messages ++
      [{ id := "sys-" ++ toString now ++ "-1"
         fromId := requesterId
         toId := userId
         content := "You are now friends with " ++ requester.name ++ ". Start chatting now!"
         timestamp := now
         read := false }])
  | _, _ => (users, messages)

/-- From `StorageService.sendMessage` (part_000): push, then when more than 500
messages are stored splice away the first (oldest) 100. -/
def sendMessage (messages : List Message) (msg : Message) : List Message :=
  let messages := messages ++ [msg]
  if messages.length > 500 then messages.drop 100 else messages

end Sync

namespace Async

/-- The four localStorage keys of the async variant (part_001) as one state. -/
structure Store where
  users : List User
  posts : List Post
  messages : List Message
  session : Option String
deriving Repr, DecidableEq

/-- From `StorageService.login` (part_001): the password-checking lookup is
computed but never used; the returned user is the first one whose `userId`
matches, and the call fails (throws) only when no such user exists. -/
def login (users : List User) (userId password : String) : Option User :=
  let _user := users.find? (fun u => u.userId == userId && u.password == some password)
  users.find? (fun u => u.userId == userId)

/-- From `StorageService.updateUser` (part_001): replace the record at the index
with the matching `id`; no handle-uniqueness re-validation of any kind. -/
def updateUser (users : List User) (updatedUser : User) : Bool × List User :=
  match users.findIdx? (fun u => u.id == updatedUser.id) with
  | some i => (true, users.set i updatedUser)
  | none => (false, users)

/-- From `StorageService.createPost` (part_001): plain `unshift`, no capacity cap. -/
def createPost (posts : List Post) (post : Post) : List Post :=
  post :: posts

/-- From `StorageService.sendMessage` (part_001): assign a fresh id when the
id of the message is falsy (empty), then push; no eviction of any kind. -/
def sendMessage (messages : List Message) (msg : Message) (freshId : String) :
    List Message :=
  let msg := if msg.id == "" then { msg with id := freshId } else msg
  messages ++ [msg]

/-- From `StorageService.acceptFriendRequest` (part_001): when both indices exist,
conditionally push each id onto the `friends` of the other (guarded against
duplicates), filter the request away, then send one system message through
`sendMessage`. -/
def acceptFriendRequest (users : List User) (messages : List Message)
    (userId requesterId : String) (now : Nat) : List User × List Message :=
  match findUserById users userId, findUserById users requesterId with
  | some _, some requester =>
    let users1 := updateFirst users userId (addFriendIfAbsent requesterId)
    let users2 := updateFirst users1 requesterId (addFriendIfAbsent userId)
    let users3 := updateFirst users2 userId (dropRequest requesterId)
    (users3, sendMessage messages
      { id := "sys-" ++ toString now
        fromId := requesterId
        toId := userId
        content := "You are now friends with " ++ requester.name ++ ". Start chatting now!"
        timestamp := now
        read := false } ("msg-fallback"))
  | _, _ => (users, messages)

/-- From `StorageService.deleteUser` (part_001): filter the `users` collection by
id; the `posts`, `messages` and `session` keys are not touched. -/
def deleteUser (st : Store) (uid : String) : Store :=
  { st with users := st.users.filter (fun u => u.id != uid) }

end Async

namespace Fire

/-- Firestore `arrayUnion` on a string-array field: append when absent. -/
def arrayUnion (l : List String) (x : String) : List String :=
  if l.contains x then l else l ++ [x]

/-- Firestore `arrayRemove` on a string-array field: remove every occurrence. -/
def arrayRemove (l : List String) (x : String) : List String :=
  l.filter (fun i => i != x)

/-- The accepter-side `updateDoc` payload in `acceptFriendRequest`:
`friends: arrayUnion(requesterId), friendRequests: arrayRemove(requesterId)`. -/
def acceptUserUpdate (requesterId : String) (u : User) : User :=
  { u with friends := arrayUnion u.friends requesterId,
           friendRequests := arrayRemove u.friendRequests requesterId }

/-- The requester-side `updateDoc` payload in `acceptFriendRequest`:
`friends: arrayUnion(userId)`. -/
def requesterUpdate (userId : String) (u : User) : User :=
  { u with friends := arrayUnion u.friends userId }

/-- From `StorageService.updateUser` (storage.ts): `updateDoc` with every field of
the record — succeeds iff the document exists; no handle-uniqueness check
(the code comment above it claims a client-side check, but none is made). -/
def updateUser (users : List User) (updatedUser : User) : Bool × List User :=
  if (findUserById users updatedUser.id).isSome then
    (true, updateFirst users updatedUser.id (fun _ => updatedUser))
  else
    (false, users)

/-- From `StorageService.acceptFriendRequest` (storage.ts): `updateDoc` on the
accepter (`friends: arrayUnion(requesterId)`, `friendRequests:
arrayRemove(requesterId)`), then `updateDoc` on the requester (`friends:
arrayUnion(userId)`), then `addDoc` of one system message. A missing document
makes `updateDoc` throw; the surrounding catch keeps whatever was already
committed. -/
def acceptFriendRequest (users : List User) (messages : List Message)
    (userId requesterId : String) (now : Nat) : List User × List Message :=
  if (findUserById users userId).isSome then
    let users1 := updateFirst users userId (acceptUserUpdate requesterId)
    if (findUserById users1 requesterId).isSome then
      let users2 := updateFirst users1 requesterId (requesterUpdate userId)
      let requesterName := ((findUserById users2 requesterId).map User.name).getD ("")
      (users2, messages ++
        [{ id := "sys-" ++ toString now
           fromId := requesterId
           toId := userId
           content := "You are now friends with " ++ requesterName ++ ". Start chatting now!"
           timestamp := now
           read := false }])
    else (users1, messages)
  else (users, messages)

end Fire

/-! ### Lemmas about `updateFirst` and the lookup functions -/

theorem findUserById_nil (uid : String) : findUserById [] uid = none := rfl

/-- Looking up the updated id: `updateFirst` maps the found record through `f`
(provided `f` keeps the `id` of the record). -/
theorem findUserById_updateFirst_self (users : List User) (uid : String)
    (f : User → User) (hf : ∀ u, (f u).id = u.id) :
    findUserById (updateFirst users uid f) uid = (findUserById users uid).map f := by
  induction users with
  | nil => rfl
  | cons u rest ih =>
    cases hb : (u.id == uid) with
    | true =>
      have hfb : ((f u).id == uid) = true := by rw [hf]; exact hb
      simp only [updateFirst, hb, if_true, findUserById]
      rw [@List.find?_cons_of_pos _ (fun w => w.id == uid) (f u) rest hfb,
        @List.find?_cons_of_pos _ (fun w => w.id == uid) u rest hb]
      rfl
    | false =>
      simp only [updateFirst, hb, Bool.false_eq_true, if_false, findUserById]
      rw [@List.find?_cons_of_neg _ (fun w => w.id == uid) u (updateFirst rest uid f)
          (by simp [hb]),
        @List.find?_cons_of_neg _ (fun w => w.id == uid) u rest (by simp [hb])]
      exact ih

/-- Looking up any other id is unaffected by `updateFirst`
(provided `f` keeps the `id` of the record). -/
theorem findUserById_updateFirst_ne (users : List User) (uid v : String)
    (f : User → User) (hf : ∀ u, (f u).id = u.id) (hne : v ≠ uid) :
    findUserById (updateFirst users uid f) v = findUserById users v := by
  induction users with
  | nil => rfl
  | cons u rest ih =>
    cases hb : (u.id == uid) with
    | true =>
      have h1 : u.id = uid := beq_iff_eq.mp hb
      have hpv : ((f u).id == v) = false := by
        rw [hf, h1]; exact beq_eq_false_iff_ne.mpr (Ne.symm hne)
      have hpv2 : (u.id == v) = false := by
        rw [h1]; exact beq_eq_false_iff_ne.mpr (Ne.symm hne)
      simp only [updateFirst, hb, if_true, findUserById]
      rw [@List.find?_cons_of_neg _ (fun w => w.id == v) (f u) rest (by simp [hpv]),
        @List.find?_cons_of_neg _ (fun w => w.id == v) u rest (by simp [hpv2])]
    | false =>
      simp only [updateFirst, hb, Bool.false_eq_true, if_false, findUserById]
      cases hpv : (u.id == v) with
      | true =>
        rw [@List.find?_cons_of_pos _ (fun w => w.id == v) u (updateFirst rest uid f) hpv,
          @List.find?_cons_of_pos _ (fun w => w.id == v) u rest hpv]
      | false =>
        rw [@List.find?_cons_of_neg _ (fun w => w.id == v) u (updateFirst rest uid f)
            (by simp [hpv]),
          @List.find?_cons_of_neg _ (fun w => w.id == v) u rest (by simp [hpv])]
        exact ih

/-- An `updateFirst` with an id-preserving `f` keeps lookups defined. -/
theorem findUserById_updateFirst_isSome (users : List User) (uid v : String)
    (f : User → User) (hf : ∀ u, (f u).id = u.id)
    (h : (findUserById users v).isSome = true) :
    (findUserById (updateFirst users uid f) v).isSome = true := by
  by_cases hv : v = uid
  · subst hv
    rw [findUserById_updateFirst_self _ _ _ hf]
    cases hx : findUserById users v with
    | none => rw [hx] at h; exact absurd h (by simp)
    | some u => simp
  · rw [findUserById_updateFirst_ne _ _ _ _ hf hv]
    exact h

/-- A friends-preserving `updateFirst` does not change any `friendsOf`. -/
theorem friendsOf_updateFirst_keep (users : List User) (uid v : String)
    (f : User → User) (hf : ∀ u, (f u).id = u.id)
    (hfr : ∀ u, (f u).friends = u.friends) :
    friendsOf (updateFirst users uid f) v = friendsOf users v := by
  by_cases h : v = uid
  · subst h
    rw [friendsOf, findUserById_updateFirst_self _ _ _ hf, friendsOf]
    cases findUserById users v <;> simp [hfr]
  · rw [friendsOf, findUserById_updateFirst_ne _ _ _ _ hf h, friendsOf]

/-- A requests-preserving `updateFirst` does not change any `requestsOf`. -/
theorem requestsOf_updateFirst_keep (users : List User) (uid v : String)
    (f : User → User) (hf : ∀ u, (f u).id = u.id)
    (hq : ∀ u, (f u).friendRequests = u.friendRequests) :
    requestsOf (updateFirst users uid f) v = requestsOf users v := by
  by_cases h : v = uid
  · subst h
    rw [requestsOf, findUserById_updateFirst_self _ _ _ hf, requestsOf]
    cases findUserById users v <;> simp [hq]
  · rw [requestsOf, findUserById_updateFirst_ne _ _ _ _ hf h, requestsOf]

theorem not_mem_filter_bne (l : List String) (x : String) :
    x ∉ l.filter (fun i => i != x) := by
  intro h
  have := (List.mem_filter.mp h).2
  simp at this

/-- Core of friendship symmetry, shared by the three variants: after writing
`f1` to the accepter and then `f2` to the requester — `f1` putting the
requester into `friends`, `f2` putting the accepter into `friends` without
dropping anybody — both directions of the friendship are stored. -/
theorem mem_friends_after_two (users : List User) (userId requesterId : String)
    (f1 f2 : User → User)
    (hf1 : ∀ u, (f1 u).id = u.id) (hf2 : ∀ u, (f2 u).id = u.id)
    (hA1 : ∀ u, requesterId ∈ (f1 u).friends)
    (hA2 : ∀ u, userId ∈ (f2 u).friends)
    (hM2 : ∀ u x, x ∈ u.friends → x ∈ (f2 u).friends)
    (u0 : User) (hu0 : findUserById users userId = some u0)
    (r0 : User) (hr0 : findUserById users requesterId = some r0) :
    requesterId ∈ friendsOf (updateFirst (updateFirst users userId f1) requesterId f2) userId ∧
    userId ∈ friendsOf (updateFirst (updateFirst users userId f1) requesterId f2) requesterId := by
  by_cases hEq : requesterId = userId
  · subst hEq
    constructor <;>
    · rw [friendsOf, findUserById_updateFirst_self _ _ _ hf2,
        findUserById_updateFirst_self _ _ _ hf1, hu0]
      simp only [Option.map_some', Option.getD_some]
      exact hM2 _ _ (hA1 u0)
  · constructor
    · rw [friendsOf, findUserById_updateFirst_ne _ _ _ _ hf2 (Ne.symm hEq),
        findUserById_updateFirst_self _ _ _ hf1, hu0]
      simp only [Option.map_some', Option.getD_some]
      exact hA1 u0
    · rw [friendsOf, findUserById_updateFirst_self _ _ _ hf2,
        findUserById_updateFirst_ne _ _ _ _ hf1 hEq, hr0]
      simp only [Option.map_some', Option.getD_some]
      exact hA2 r0

theorem mem_arrayUnion_self (l : List String) (x : String) : x ∈ Fire.arrayUnion l x := by
  unfold Fire.arrayUnion
  cases hb : l.contains x with
  | true => simp only [hb, if_true]; exact List.elem_iff.mp hb
  | false =>
    simp only [hb, Bool.false_eq_true, if_false]
    exact List.mem_append_right _ (List.mem_singleton.mpr rfl)

theorem mem_arrayUnion_mono (l : List String) (x y : String) (h : y ∈ l) :
    y ∈ Fire.arrayUnion l x := by
  unfold Fire.arrayUnion
  split
  · exact h
  · exact List.mem_append_left _ h

theorem mem_addFriend_self (fid : String) (u : User) : fid ∈ (addFriend fid u).friends :=
  List.mem_append_right _ (List.mem_singleton.mpr rfl)

theorem mem_addFriend_mono (fid x : String) (u : User) (h : x ∈ u.friends) :
    x ∈ (addFriend fid u).friends :=
  List.mem_append_left _ h

theorem addFriendIfAbsent_id (fid : String) (u : User) :
    (addFriendIfAbsent fid u).id = u.id := by
  unfold addFriendIfAbsent
  split <;> rfl

theorem mem_addFriendIfAbsent_self (fid : String) (u : User) :
    fid ∈ (addFriendIfAbsent fid u).friends := by
  unfold addFriendIfAbsent
  cases hb : u.friends.contains fid with
  | true => simp only [hb, if_true]; exact List.elem_iff.mp hb
  | false =>
    simp only [hb, Bool.false_eq_true, if_false]
    exact List.mem_append_right _ (List.mem_singleton.mpr rfl)

theorem mem_addFriendIfAbsent_mono (fid x : String) (u : User) (h : x ∈ u.friends) :
    x ∈ (addFriendIfAbsent fid u).friends := by
  unfold addFriendIfAbsent
  split
  · exact h
  · exact List.mem_append_left _ h

/-- C2: friendship symmetry — in each of the three storage variants, when
both users are stored (the success case), immediately after
`acceptFriendRequest(userId, requesterId)` returns, the requester is in the
`friends` of the accepter and the accepter is in the `friends` of the requester, so
each membership is equivalent to the other — both additions happen inside
the one operation. -/
theorem acceptFriendRequest_symmetric (users : List User) (messages : List Message)
    (userId requesterId : String) (now : Nat)
    (hu : (findUserById users userId).isSome = true)
    (hr : (findUserById users requesterId).isSome = true) :
    (requesterId ∈ friendsOf (Sync.acceptFriendRequest users messages userId requesterId now).1 userId ∧
      userId ∈ friendsOf (Sync.acceptFriendRequest users messages userId requesterId now).1 requesterId) ∧
    (requesterId ∈ friendsOf (Async.acceptFriendRequest users messages userId requesterId now).1 userId ∧
      userId ∈ friendsOf (Async.acceptFriendRequest users messages userId requesterId now).1 requesterId) ∧
    (requesterId ∈ friendsOf (Fire.acceptFriendRequest users messages userId requesterId now).1 userId ∧
      userId ∈ friendsOf (Fire.acceptFriendRequest users messages userId requesterId now).1 requesterId) := by
  obtain ⟨u0, hu0⟩ := Option.isSome_iff_exists.mp hu
  obtain ⟨r0, hr0⟩ := Option.isSome_iff_exists.mp hr
  refine ⟨?_, ?_, ?_⟩
  · simp only [Sync.acceptFriendRequest, hu0, hr0]
    have base := mem_friends_after_two users userId requesterId
      (addFriend requesterId) (addFriend userId) (fun u => rfl) (fun u => rfl)
      (fun u => mem_addFriend_self requesterId u)
      (fun u => mem_addFriend_self userId u)
      (fun u x hx => mem_addFriend_mono userId x u hx) u0 hu0 r0 hr0
    have hk1 := friendsOf_updateFirst_keep
      (updateFirst (updateFirst users userId (addFriend requesterId)) requesterId
        (addFriend userId))
      userId userId (dropRequest requesterId) (fun u => rfl) (fun u => rfl)
    have hk2 := friendsOf_updateFirst_keep
      (updateFirst (updateFirst users userId (addFriend requesterId)) requesterId
        (addFriend userId))
      userId requesterId (dropRequest requesterId) (fun u => rfl) (fun u => rfl)
    exact ⟨by rw [hk1]; exact base.1, by rw [hk2]; exact base.2⟩
  · simp only [Async.acceptFriendRequest, hu0, hr0]
    have base := mem_friends_after_two users userId requesterId
      (addFriendIfAbsent requesterId) (addFriendIfAbsent userId)
      (fun u => addFriendIfAbsent_id requesterId u)
      (fun u => addFriendIfAbsent_id userId u)
      (fun u => mem_addFriendIfAbsent_self requesterId u)
      (fun u => mem_addFriendIfAbsent_self userId u)
      (fun u x hx => mem_addFriendIfAbsent_mono userId x u hx) u0 hu0 r0 hr0
    have hk1 := friendsOf_updateFirst_keep
      (updateFirst (updateFirst users userId (addFriendIfAbsent requesterId)) requesterId
        (addFriendIfAbsent userId))
      userId userId (dropRequest requesterId) (fun u => rfl) (fun u => rfl)
    have hk2 := friendsOf_updateFirst_keep
      (updateFirst (updateFirst users userId (addFriendIfAbsent requesterId)) requesterId
        (addFriendIfAbsent userId))
      userId requesterId (dropRequest requesterId) (fun u => rfl) (fun u => rfl)
    exact ⟨by rw [hk1]; exact base.1, by rw [hk2]; exact base.2⟩
  · have hsome1 : (findUserById (updateFirst users userId (Fire.acceptUserUpdate requesterId))
        requesterId).isSome = true :=
      findUserById_updateFirst_isSome users userId requesterId _ (fun u => rfl) hr
    simp only [Fire.acceptFriendRequest, hu, hsome1, eq_self_iff_true, if_true]
    exact mem_friends_after_two users userId requesterId
      (Fire.acceptUserUpdate requesterId) (Fire.requesterUpdate userId)
      (fun u => rfl) (fun u => rfl)
      (fun u => mem_arrayUnion_self u.friends requesterId)
      (fun u => mem_arrayUnion_self u.friends userId)
      (fun u x hx => mem_arrayUnion_mono u.friends userId x hx) u0 hu0 r0 hr0

theorem sys_beq_empty_false (s : String) : (("sys-" ++ s) == "") = false := by
  rw [beq_eq_false_iff_ne]
  intro h
  have hl := congrArg String.length h
  rw [String.length_append] at hl
  have h4 : ("sys-" : String).length = 4 := rfl
  have h0 : ("" : String).length = 0 := rfl
  rw [h4, h0] at hl
  omega

/-- C7: in each of the three storage variants, a successful
`acceptFriendRequest(userId, requesterId)` appends exactly one new message —
from the requester, to the accepter, timestamped at acceptance time — and
removes the requester from the `friendRequests` of the accepter in the same
operation. -/
theorem acceptFriendRequest_announces (users : List User) (messages : List Message)
    (userId requesterId : String) (now : Nat)
    (hu : (findUserById users userId).isSome = true)
    (hr : (findUserById users requesterId).isSome = true) :
    ((∃ m : Message, (Sync.acceptFriendRequest users messages userId requesterId now).2
          = messages ++ [m] ∧ m.fromId = requesterId ∧ m.toId = userId ∧ m.timestamp = now) ∧
      requesterId ∉ requestsOf (Sync.acceptFriendRequest users messages userId requesterId now).1 userId) ∧
    ((∃ m : Message, (Async.acceptFriendRequest users messages userId requesterId now).2
          = messages ++ [m] ∧ m.fromId = requesterId ∧ m.toId = userId ∧ m.timestamp = now) ∧
      requesterId ∉ requestsOf (Async.acceptFriendRequest users messages userId requesterId now).1 userId) ∧
    ((∃ m : Message, (Fire.acceptFriendRequest users messages userId requesterId now).2
          = messages ++ [m] ∧ m.fromId = requesterId ∧ m.toId = userId ∧ m.timestamp = now) ∧
      requesterId ∉ requestsOf (Fire.acceptFriendRequest users messages userId requesterId now).1 userId) := by
  obtain ⟨u0, hu0⟩ := Option.isSome_iff_exists.mp hu
  obtain ⟨r0, hr0⟩ := Option.isSome_iff_exists.mp hr
  refine ⟨?_, ?_, ?_⟩
  · simp only [Sync.acceptFriendRequest, hu0, hr0]
    refine ⟨⟨_, rfl, rfl, rfl, rfl⟩, ?_⟩
    have hs1 : (findUserById (updateFirst users userId (addFriend requesterId))
        userId).isSome = true :=
      findUserById_updateFirst_isSome users userId userId _ (fun u => rfl) hu
    have hs2 : (findUserById (updateFirst (updateFirst users userId (addFriend requesterId))
        requesterId (addFriend userId)) userId).isSome = true :=
      findUserById_updateFirst_isSome _ requesterId userId _ (fun u => rfl) hs1
    obtain ⟨w, hw⟩ := Option.isSome_iff_exists.mp hs2
    rw [requestsOf, findUserById_updateFirst_self
      (updateFirst (updateFirst users userId (addFriend requesterId)) requesterId
        (addFriend userId))
      userId (dropRequest requesterId) (fun u => rfl), hw]
    simp only [Option.map_some', Option.getD_some]
    exact not_mem_filter_bne w.friendRequests requesterId
  · simp only [Async.acceptFriendRequest, hu0, hr0]
    constructor
    · refine ⟨{ id := "sys-" ++ toString now
                fromId := requesterId
                toId := userId
                content := "You are now friends with " ++ r0.name ++ ". Start chatting now!"
                timestamp := now
                read := false }, ?_, rfl, rfl, rfl⟩
      simp only [Async.sendMessage, sys_beq_empty_false, Bool.false_eq_true, if_false]
    · have hs1 : (findUserById (updateFirst users userId (addFriendIfAbsent requesterId))
          userId).isSome = true :=
        findUserById_updateFirst_isSome users userId userId _
          (fun u => addFriendIfAbsent_id requesterId u) hu
      have hs2 : (findUserById (updateFirst
          (updateFirst users userId (addFriendIfAbsent requesterId))
          requesterId (addFriendIfAbsent userId)) userId).isSome = true :=
        findUserById_updateFirst_isSome _ requesterId userId _
          (fun u => addFriendIfAbsent_id userId u) hs1
      obtain ⟨w, hw⟩ := Option.isSome_iff_exists.mp hs2
      rw [requestsOf, findUserById_updateFirst_self
        (updateFirst (updateFirst users userId (addFriendIfAbsent requesterId)) requesterId
          (addFriendIfAbsent userId))
        userId (dropRequest requesterId) (fun u => rfl), hw]
      simp only [Option.map_some', Option.getD_some]
      exact not_mem_filter_bne w.friendRequests requesterId
  · have hsome1 : (findUserById (updateFirst users userId (Fire.acceptUserUpdate requesterId))
        requesterId).isSome = true :=
      findUserById_updateFirst_isSome users userId requesterId _ (fun u => rfl) hr
    simp only [Fire.acceptFriendRequest, hu, hsome1, eq_self_iff_true, if_true]
    refine ⟨⟨_, rfl, rfl, rfl, rfl⟩, ?_⟩
    have hk := requestsOf_updateFirst_keep
      (updateFirst users userId (Fire.acceptUserUpdate requesterId))
      requesterId userId (Fire.requesterUpdate userId) (fun u => rfl) (fun u => rfl)
    rw [hk, requestsOf, findUserById_updateFirst_self users userId
      (Fire.acceptUserUpdate requesterId) (fun u => rfl), hu0]
    simp only [Option.map_some', Option.getD_some]
    exact not_mem_filter_bne u0.friendRequests requesterId

/-- A concrete stored user (`alice`). -/
def aliceU : User :=
  { id := "alice-id"
    userId := "alice1"
    username := "alice"
    password := some ("pw-a")
    name := "Alice"
    email := none
    avatar := "a.png"
    coverPhoto := "ac.png"
    bio := "hi"
    joinedAt := 1
    friends := []
    friendRequests := []
    isAdmin := none
    status := "online" }

/-- A concrete stored user (`bob`) with a pending request from `alice`. -/
def bobU : User :=
  { aliceU with
    id := "bob-id"
    userId := "bob1"
    name := "Bob"
    friendRequests := ["alice-id"] }

/-- A concrete two-user store. -/
def demoUsers : List User := [aliceU, bobU]

/-- The user `bob` renamed to the current handle of `alice`. -/
def bobRenamed : User := { bobU with userId := "alice1" }

/-- Witness for `acceptFriendRequest_symmetric`: `bob` accepts the request
from `alice` in the concrete two-user store. -/
theorem acceptFriendRequest_symmetric_witness :
    ("alice-id" : String) ∈
      friendsOf (Sync.acceptFriendRequest demoUsers [] ("bob-id") ("alice-id") 7).1 ("bob-id") ∧
    ("bob-id" : String) ∈
      friendsOf (Sync.acceptFriendRequest demoUsers [] ("bob-id") ("alice-id") 7).1 ("alice-id") :=
  (acceptFriendRequest_symmetric demoUsers [] ("bob-id") ("alice-id") 7
    (by decide) (by decide)).1

/-- Witness for `acceptFriendRequest_announces` at the same concrete store. -/
theorem acceptFriendRequest_announces_witness :
    ("alice-id" : String) ∉
      requestsOf (Async.acceptFriendRequest demoUsers [] ("bob-id") ("alice-id") 9).1 ("bob-id") :=
  (acceptFriendRequest_announces demoUsers [] ("bob-id") ("alice-id") 9
    (by decide) (by decide)).2.1.2

/-- The `i`-th post created in the eviction scenario (distinguished by `createdAt`). -/
def mkPost (i : Nat) : Post :=
  { basePost with id := "p", createdAt := i }

/-- The store after `n` successive `createPost` calls against the synchronous
variant, starting from an empty store. -/
def createSeq (n : Nat) : List Post :=
  (List.range n).foldl (fun acc i => Sync.createPost acc (mkPost i)) []

set_option maxRecDepth 20000 in
/-- C3: the code evicts only when the stored count *before* insertion already
exceeds 50, so after 51 creates the store holds all 51 posts — the very first
one included — and the steady state is 51, not 50; the async variant
(`part_001`) never evicts at all. This contradicts the stated cap of 50
(and the comment in the code itself, `Limit total posts to 50`). -/
theorem createPost_cap_off_by_one :
    (createSeq 51).length = 51 ∧
    mkPost 0 ∈ createSeq 51 ∧
    mkPost 50 ∈ createSeq 51 ∧
    (createSeq 52).length = 51 ∧
    mkPost 0 ∉ createSeq 52 ∧
    (Async.createPost ((List.range 51).map mkPost) (mkPost 51)).length = 52 := by
  refine ⟨by decide, by decide, by decide, by decide, by decide, ?_⟩
  simp only [Async.createPost, List.length_cons, List.length_map, List.length_range]

/-- C6: `updateUser` does not re-validate handle uniqueness in the async
local-storage variant nor in the Firestore variant — renaming `bob` to
the current handle of `alice` commits and reports success in both, leaving two
stored users with the same handle; only the synchronous variant rejects it. -/
theorem updateUser_skips_handle_check :
    bobRenamed.userId = aliceU.userId ∧
    bobRenamed.id ≠ aliceU.id ∧
    Async.updateUser demoUsers bobRenamed = (true, [aliceU, bobRenamed]) ∧
    Fire.updateUser demoUsers bobRenamed = (true, [aliceU, bobRenamed]) ∧
    Sync.updateUser demoUsers bobRenamed = (false, demoUsers) := by
  refine ⟨rfl, by decide, by decide, by decide, by decide⟩

/-- A concrete stored message. -/
def msgA : Message :=
  { id := "m1"
    fromId := "alice-id"
    toId := "bob-id"
    content := "hi"
    timestamp := 1
    read := true }

/-- C8 counterexample: the async variant of `sendMessage` never evicts — after
appending to a store already holding 500 messages the count stays at 501 —
and the synchronous variant never assigns an id to a message whose id is
absent (empty). -/
theorem sendMessage_async_unbounded :
    (Async.sendMessage (List.replicate 500 msgA) msgA ("fresh-id")).length = 501 ∧
    500 < 501 ∧
    Sync.sendMessage [] { msgA with id := "" } = [{ msgA with id := "" }] := by
  refine ⟨?_, by decide, by decide⟩
  have hid : (msgA.id == "") = false := by decide
  simp only [Async.sendMessage, hid, Bool.false_eq_true, if_false, List.length_append,
    List.length_replicate, List.length_cons, List.length_nil]

/-- C8 (amended): `sendMessage` always appends; the async variant assigns a
fresh id exactly when the incoming id is empty but never evicts, while the
synchronous variant evicts the 100 oldest messages as a batch exactly when
the post-append count exceeds 500, so its stored count never stays above
500. -/
theorem sendMessage_amended (msgs : List Message) (msg : Message) (fid : String)
    (h : msgs.length ≤ 500) :
    Async.sendMessage msgs msg fid
        = msgs ++ [if msg.id == "" then { msg with id := fid } else msg] ∧
    Sync.sendMessage msgs msg
        = (if msgs.length + 1 > 500 then (msgs ++ [msg]).drop 100 else msgs ++ [msg]) ∧
    (Sync.sendMessage msgs msg).length ≤ 500 := by
  refine ⟨rfl, ?_, ?_⟩
  · simp [Sync.sendMessage]
  · by_cases hgt : msgs.length + 1 > 500
    · simp only [Sync.sendMessage, List.length_append, List.length_cons,
        List.length_nil, Nat.add_zero]
      rw [if_pos hgt]
      rw [List.length_drop]
      simp only [List.length_append, List.length_cons, List.length_nil]
      omega
    · simp only [Sync.sendMessage, List.length_append, List.length_cons,
        List.length_nil, Nat.add_zero]
      rw [if_neg hgt]
      simp only [List.length_append, List.length_cons, List.length_nil]
      omega

/-- Witness for `sendMessage_amended` at a concrete store and message. -/
theorem sendMessage_amended_witness :
    (Sync.sendMessage [msgA] msgA).length ≤ 500 :=
  (sendMessage_amended [msgA] msgA ("f2") (by decide)).2.2

/-- C9: in the async local-storage variant the password argument has no
influence on `login` — any two passwords give the same result, the result is
a stored user whose `userId` field matches, and the call fails only when no
stored user carries that `userId`. -/
theorem login_ignores_password (users : List User) (uid p1 p2 : String) :
    Async.login users uid p1 = Async.login users uid p2 ∧
    (Async.login users uid p1 = none ↔ ∀ u ∈ users, u.userId ≠ uid) ∧
    (∀ u : User, Async.login users uid p1 = some u → u ∈ users ∧ u.userId = uid) := by
  refine ⟨rfl, ?_, ?_⟩
  · unfold Async.login
    rw [List.find?_eq_none]
    constructor
    · intro h u hu
      have := h u hu
      simpa using this
    · intro h u hu
      simpa using h u hu
  · intro u h
    unfold Async.login at h
    refine ⟨List.mem_of_find?_eq_some h, ?_⟩
    have := List.find?_some h
    simpa using this

/-- Witness for `login_ignores_password`: logging in as `alice1` with two
different passwords (neither the stored one) returns the stored `alice`. -/
theorem login_ignores_password_witness :
    aliceU ∈ demoUsers ∧ aliceU.userId = "alice1" :=
  (login_ignores_password demoUsers ("alice1") ("wrong-1") ("wrong-2")).2.2 aliceU (by decide)

/-- C10: `deleteUser` in the async variant removes exactly the user records
whose `id` equals the argument and keeps every other user record identical,
and the posts, messages and session keys are untouched — references to the
deleted id inside the surviving records are left dangling. -/
theorem deleteUser_frame (st : Async.Store) (uid : String) :
    (∀ v : User, v ∈ (Async.deleteUser st uid).users ↔ (v ∈ st.users ∧ v.id ≠ uid)) ∧
    (Async.deleteUser st uid).posts = st.posts ∧
    (Async.deleteUser st uid).messages = st.messages ∧
    (Async.deleteUser st uid).session = st.session := by
  refine ⟨?_, rfl, rfl, rfl⟩
  intro v
  simp [Async.deleteUser, List.mem_filter, bne_iff_ne]
